import Mathlib

/-!
Verification of the Vriddhi portfolio-construction engine
(`app/services/investment_engine.py` and `app/schemas/investment.py`),
shallowly embedded over exact rationals.  Python floats are modelled as
`ℚ`; `None`-able fields as `Option ℚ`; exceptions as `Except`/`Option`.
Python's `round` (banker's rounding, half to even) is `roundHalfEven`.
-/

namespace Vriddhi

/-- Python's built-in `round` to an integer: round half to even. -/
def roundHalfEven (q : ℚ) : ℤ :=
  if q - ⌊q⌋ < 1/2 then ⌊q⌋
  else if 1/2 < q - ⌊q⌋ then ⌊q⌋ + 1
  else if ⌊q⌋ % 2 = 0 then ⌊q⌋ else ⌊q⌋ + 1

/-- Latest `StockForecast` row for a stock: the seven horizon columns,
any of which may be NULL (`forecast_6m` .. `forecast_60m`). -/
structure StockForecast where
  forecast6m : Option ℚ
  forecast12m : Option ℚ
  forecast18m : Option ℚ
  forecast24m : Option ℚ
  forecast36m : Option ℚ
  forecast48m : Option ℚ
  forecast60m : Option ℚ
deriving DecidableEq, Repr, Inhabited

/-- `getattr(forecast, col)` for the seven forecast column names. -/
def getForecastVal (fc : StockForecast) (col : String) : Option ℚ :=
  if col = "forecast_6m" then fc.forecast6m
  else if col = "forecast_12m" then fc.forecast12m
  else if col = "forecast_18m" then fc.forecast18m
  else if col = "forecast_24m" then fc.forecast24m
  else if col = "forecast_36m" then fc.forecast36m
  else if col = "forecast_48m" then fc.forecast48m
  else if col = "forecast_60m" then fc.forecast60m
  else none

/-- An active `Stock` row joined with its latest forecast (the engine
fetches the latest `StockForecast` per ticker before selection). -/
structure Stock where
  ticker : String
  sector : String
  currentPrice : ℚ
  peRatio : Option ℚ
  pbRatio : Option ℚ
  avgHistoricalCagr : Option ℚ
  investmentStyle : Option String
  riskLevel : Option String
  overallRank : Option ℕ
  latestForecast : Option StockForecast
deriving DecidableEq, Repr, Inhabited

/-- `VriddhiInvestmentEngine.get_forecast_column`:
`self.forecast_map.get(horizon_months, 'forecast_24m')`. -/
def get_forecast_column (horizonMonths : ℤ) : String :=
  if horizonMonths = 6 then "forecast_6m"
  else if horizonMonths = 12 then "forecast_12m"
  else if horizonMonths = 18 then "forecast_18m"
  else if horizonMonths = 24 then "forecast_24m"
  else if horizonMonths = 36 then "forecast_36m"
  else if horizonMonths = 48 then "forecast_48m"
  else if horizonMonths = 60 then "forecast_60m"
  else "forecast_24m"

/-- `InvestmentPlanRequest.validate_horizon`:
`min([12,18,24,36,48,60], key=lambda x: abs(x - v))`.  Python's `min`
keeps the earliest element on ties, scanning left to right. -/
def validate_horizon (v : ℤ) : ℤ :=
  let b1 : ℤ := 12
  let b2 : ℤ := if ((18:ℤ) - v).natAbs < (b1 - v).natAbs then 18 else b1
  let b3 : ℤ := if ((24:ℤ) - v).natAbs < (b2 - v).natAbs then 24 else b2
  let b4 : ℤ := if ((36:ℤ) - v).natAbs < (b3 - v).natAbs then 36 else b3
  let b5 : ℤ := if ((48:ℤ) - v).natAbs < (b4 - v).natAbs then 48 else b4
  if ((60:ℤ) - v).natAbs < (b5 - v).natAbs then 60 else b5

/-- Python truthiness of a nullable float: `None` and `0.0` are falsy. -/
def truthy (o : Option ℚ) : Bool :=
  match o with
  | none => false
  | some q => decide (q ≠ 0)

/-- One entry of `stock_data` / one row of the selection DataFrame, as
built in `advanced_stock_selector` (lines 104-117). -/
structure Row where
  stock : Stock
  ticker : String
  sector : String
  peRatio : ℚ
  pbRatio : ℚ
  avgHistoricalCagr : ℚ
  currentPrice : ℚ
  forecastCagr : ℚ
  pegRatio : ℚ
  overallRank : ℕ
deriving DecidableEq, Repr, Inhabited

/-- The `stock_data.append(...)` body: a stock contributes a row iff
`forecast and stock.pe_ratio and stock.avg_historical_cagr` is truthy and
then `forecast_value and stock.pe_ratio > 0 and stock.avg_historical_cagr > 0`. -/
def mkRow (col : String) (s : Stock) : Option Row :=
  match s.latestForecast, s.peRatio, s.avgHistoricalCagr with
  | some fc, some pe, some cagr =>
    if pe ≠ 0 ∧ cagr ≠ 0 then
      match getForecastVal fc col with
      | some fv =>
        if fv ≠ 0 ∧ 0 < pe ∧ 0 < cagr then
          some { stock := s, ticker := s.ticker, sector := s.sector,
                 peRatio := pe,
                 pbRatio := s.pbRatio.getD 0,
                 avgHistoricalCagr := cagr,
                 currentPrice := s.currentPrice,
                 forecastCagr := fv,
                 pegRatio := pe / cagr,
                 overallRank := match s.overallRank with
                                | some r => if r ≠ 0 then r else 999
                                | none => 999 }
        else none
      | none => none
    else none
  | _, _, _ => none

/-- The `stock_data` list of `advanced_stock_selector`. -/
def buildStockData (univ : List Stock) (col : String) : List Row :=
  univ.filterMap (mkRow col)

/-- The DataFrame filter on line 125:
`df[(df['pe_ratio'] > 0) & (df['avg_historical_cagr'] > 0)]`. -/
def qualityGateDf (rows : List Row) : List Row :=
  rows.filter (fun r => decide (0 < r.peRatio ∧ 0 < r.avgHistoricalCagr))

/-- Stable insertion of an element into a list, keeping earlier elements
first on ties (models a stable ascending sort). -/
def insertSorted (le : α → α → Bool) (x : α) : List α → List α
  | [] => [x]
  | y :: ys => if le x y then x :: y :: ys else y :: insertSorted le x ys

/-- Stable ascending sort; models `DataFrame.sort_values(..., ascending=True)`
(pandas leaves tie order implementation-defined; we fix the stable order). -/
def insertionSort (le : α → α → Bool) : List α → List α
  | [] => []
  | x :: xs => insertSorted le x (insertionSort le xs)

/-- Comparison used by every `sort_values('peg_ratio', ascending=True)`. -/
def pegLe (a b : Row) : Bool := decide (a.pegRatio ≤ b.pegRatio)

/-- `df['sector'].unique()`: distinct sectors in order of first appearance. -/
def uniqueSectors (rows : List Row) : List String :=
  rows.foldl (fun acc r => if r.sector ∈ acc then acc else acc ++ [r.sector]) []

/-- `DataFrame.head(n)` including pandas' negative-`n` semantics:
a negative `n` keeps all rows except the last `|n|`. -/
def pandasHead (n : ℤ) (l : List α) : List α :=
  if 0 ≤ n then l.take n.toNat else l.take (l.length - (-n).toNat)

/-- Round 1 (lines 136-154): from each sector, the lowest-PEG survivor. -/
def round1Picks (df : List Row) : List Row :=
  (uniqueSectors df).filterMap
    (fun sec => (insertionSort pegLe (df.filter (fun r => decide (r.sector = sec)))).head?)

/-- Round 2 (lines 156-169): remaining survivors with PEG strictly below
the threshold, sorted ascending by PEG, then `head(max_stocks - len(selected))`. -/
def round2Additions (df round1 : List Row) (maxStocks : ℤ) (pegThreshold : ℚ) : List Row :=
  let used := round1.map (·.ticker)
  let remaining := df.filter (fun r => decide (r.ticker ∉ used))
  let quality := remaining.filter (fun r => decide (r.pegRatio < pegThreshold))
  if quality = [] then []
  else pandasHead (maxStocks - round1.length) (insertionSort pegLe quality)

/-- Selected rows: Round-1 picks followed by Round-2 additions. -/
def selectionsOf (df : List Row) (maxStocks : ℤ) (pegThreshold : ℚ) : List Row :=
  round1Picks df ++ round2Additions df (round1Picks df) maxStocks pegThreshold

/-- The selector's output (selection list, feasibility, achieved CAGR). -/
structure SelectionResult where
  selections : List Row
  feasible : Bool
  achievedCagr : ℚ
deriving DecidableEq, Repr, Inhabited

/-- `advanced_stock_selector`: raises `ValueError` when the universe is
empty or no stock yields a valid data row; otherwise runs the two rounds
and computes the mean forecast CAGR and the feasibility flag. -/
def advanced_stock_selector (univ : List Stock) (expectedCagr : ℚ)
    (horizonMonths maxStocks minStocks : ℤ) (pegThreshold : ℚ) :
    Except String SelectionResult :=
  if univ = [] then .error "No active stocks found in database"
  else
    let stockData := buildStockData univ (get_forecast_column horizonMonths)
    if stockData = [] then .error "No stocks with valid data found"
    else
      let df := qualityGateDf stockData
      let selections := selectionsOf df maxStocks pegThreshold
      let portfolioCagr : ℚ :=
        if selections.length ≠ 0 then
          ((selections.map (·.forecastCagr)).sum / selections.length) / 100
        else 0
      .ok { selections := selections,
            feasible := decide (expectedCagr ≤ portfolioCagr) &&
                        decide (minStocks ≤ (selections.length : ℤ)),
            achievedCagr := portfolioCagr }

/-- The stocks appearing in a selector outcome (empty on error). -/
def selectedStocks (r : Except String SelectionResult) : List Stock :=
  match r with
  | .error _ => []
  | .ok res => res.selections.map (·.stock)

/-- `stock.avg_historical_cagr or 20.0` (return proxy, line 255). -/
def returnOf (s : Stock) : ℚ :=
  match s.avgHistoricalCagr with
  | some c => if c ≠ 0 then c else 20
  | none => 20

/-- `stock.pe_ratio / 100 if stock.pe_ratio else 0.25` (risk proxy, line 256). -/
def riskOf (s : Stock) : ℚ :=
  match s.peRatio with
  | some p => if p ≠ 0 then p / 100 else 1/4
  | none => 1/4

/-- `np.dot(weights, returns)`. -/
def dotQ (a b : List ℚ) : ℚ :=
  ((a.zip b).map (fun p => p.1 * p.2)).sum

/-- `np.dot(weights.T, np.dot(cov_matrix, weights))` for the diagonal
covariance `diag(risks ** 2)`: the radicand of the volatility. -/
def portVolSq (risks w : List ℚ) : ℚ :=
  ((risks.zip w).map (fun p => p.1 ^ 2 * p.2 ^ 2)).sum

/-- The solver objective `-port_return / port_vol` (lines 273-276).  Its
float value `-(wᵀr)/√(wᵀΣw)` is determined by the returned pair
(numerator `-(wᵀr)`, radicand `wᵀΣw`); the division is performed with no
zero guard, so a zero radicand gives NaN/Inf — modelled as `none`. -/
def objective (returns risks w : List ℚ) : Option (ℚ × ℚ) :=
  if portVolSq risks w = 0 then none
  else some (-(dotQ w returns), portVolSq risks w)

/-- One portfolio allocation produced by `optimize_portfolio`. -/
structure Allocation where
  stock : Stock
  ticker : String
  sector : String
  currentPrice : ℚ
  peRatio : Option ℚ
  pbRatio : Option ℚ
  expectedReturn : ℚ
  weight : ℚ
  monthlyAllocation : ℚ
deriving DecidableEq, Repr, Inhabited

/-- `optimize_portfolio` (lines 226-307).  The scipy SLSQP call is
external code, so its outcome is a parameter: `some w` is a converged
solve returning weight vector `w` (`result.success` true), `none` is a
failed or throwing solve.  On `none`, `weights = np.ones(n) / n`;
each stock then gets `weight` and `monthly_allocation = weight * monthly`. -/
def optimize_portfolio (stocks : List Stock) (monthlyInvestment : ℚ)
    (solver : Option (List ℚ)) : List Allocation :=
  let n := stocks.length
  let weights := match solver with
    | some w => w
    | none => List.replicate n (1 / (n : ℚ))
  (stocks.zip weights).map (fun p =>
    { stock := p.1, ticker := p.1.ticker, sector := p.1.sector,
      currentPrice := p.1.currentPrice, peRatio := p.1.peRatio,
      pbRatio := p.1.pbRatio,
      expectedReturn := returnOf p.1,
      weight := p.2,
      monthlyAllocation := p.2 * monthlyInvestment })

/-- First pass of `calculate_whole_share_allocation` (lines 404-424):
ideal fractional shares, whole shares (min 1), and their cost. -/
structure PreAlloc where
  alloc : Allocation
  idealShares : ℚ
  wholeShares : ℤ
  shareCost : ℚ
deriving DecidableEq, Repr, Inhabited

/-- One loop iteration of the first pass. -/
def preShareAlloc (a : Allocation) : PreAlloc :=
  let ideal := a.monthlyAllocation / a.currentPrice
  let whole : ℤ := max 1 (roundHalfEven ideal)
  { alloc := a, idealShares := ideal, wholeShares := whole,
    shareCost := (whole : ℚ) * a.currentPrice }

/-- A reconciled whole-share allocation (second pass adds
`actual_weight` and `total_monthly_investment`). -/
structure WholeShareAllocation where
  ticker : String
  currentPrice : ℚ
  weight : ℚ
  targetShares : ℚ
  wholeShares : ℤ
  shareCost : ℚ
  actualWeight : ℚ
  totalMonthlyInvestment : ℚ
deriving DecidableEq, Repr, Inhabited

/-- `calculate_whole_share_allocation` (lines 388-431). -/
def calculate_whole_share_allocation (allocs : List Allocation) :
    List WholeShareAllocation :=
  let pre := allocs.map preShareAlloc
  let total := (pre.map (·.shareCost)).sum
  pre.map (fun p =>
    { ticker := p.alloc.ticker, currentPrice := p.alloc.currentPrice,
      weight := p.alloc.weight, targetShares := p.idealShares,
      wholeShares := p.wholeShares, shareCost := p.shareCost,
      actualWeight := p.shareCost / total,
      totalMonthlyInvestment := total })

/-- The unrounded month-`m` future value (lines 362-366): the closed-form
annuity when `monthly_cagr > 0`, else the invested amount. -/
def projectedValue (monthlyInvestment annualCagr : ℚ) (m : ℕ) : ℚ :=
  if 0 < annualCagr / 12 then
    monthlyInvestment * (((1 + annualCagr / 12) ^ m - 1) / (annualCagr / 12))
  else monthlyInvestment * m

/-- `cumulative_invested` (line 359). -/
def cumulativeInvestedList (monthlyInvestment : ℚ) (horizonMonths : ℤ) : List ℚ :=
  (List.range' 1 horizonMonths.toNat).map (fun m : ℕ => monthlyInvestment * (m : ℚ))

/-- `projected_values` (lines 360-367), rounded month by month. -/
def projectedValuesList (monthlyInvestment : ℚ) (horizonMonths : ℤ)
    (annualCagr : ℚ) : List ℤ :=
  (List.range' 1 horizonMonths.toNat).map
    (fun m => roundHalfEven (projectedValue monthlyInvestment annualCagr m))

/-- `compute_projection` (lines 309-336): totals rounded at output. -/
def compute_projection (monthlyInvestment : ℚ) (horizonMonths : ℤ)
    (horizonCagr : ℚ) : ℤ × ℤ × ℤ :=
  let totalInvestment := monthlyInvestment * horizonMonths
  let futureValue := projectedValue monthlyInvestment horizonCagr horizonMonths.toNat
  (roundHalfEven totalInvestment, roundHalfEven futureValue,
   roundHalfEven (futureValue - totalInvestment))

/-- The record returned by `calculate_financial_projections`. -/
structure FinancialProjections where
  projectedValues : List ℤ
  cumulativeInvestment : List ℚ
  monthlyGains : List ℚ
  totalInvestment : ℚ
  finalValue : ℤ
  totalGain : ℚ
  moneyMultiplier : ℚ
  monthlyAvgGain : ℚ
  totalReturnPercentage : ℚ
deriving DecidableEq, Repr, Inhabited

/-- `calculate_financial_projections` (lines 338-386).  Indexing `[-1]`
of an empty list (horizon ≤ 0) and `final_value / total_investment` with
a zero `total_investment` raise at runtime; both are modelled as `none`. -/
def calculate_financial_projections (monthlyInvestment : ℚ)
    (horizonMonths : ℤ) (achievedCagr : ℚ) : Option FinancialProjections :=
  let months := List.range' 1 horizonMonths.toNat
  let cum := cumulativeInvestedList monthlyInvestment horizonMonths
  let proj := projectedValuesList monthlyInvestment horizonMonths achievedCagr
  let gains := (proj.zip cum).map (fun p => (p.1 : ℚ) - p.2)
  if months = [] then none
  else
    let finalValue := proj.getLastD 0
    let totalInvestment := cum.getLastD 0
    if totalInvestment = 0 then none
    else
      some { projectedValues := proj, cumulativeInvestment := cum,
             monthlyGains := gains, totalInvestment := totalInvestment,
             finalValue := finalValue,
             totalGain := (finalValue : ℚ) - totalInvestment,
             moneyMultiplier := (finalValue : ℚ) / totalInvestment,
             monthlyAvgGain := ((finalValue : ℚ) - totalInvestment) / horizonMonths,
             totalReturnPercentage :=
               (((finalValue : ℚ) - totalInvestment) / totalInvestment) * 100 }

/-- The complete result bundle of `run_complete_analysis` (the parts the
verified claims touch). -/
structure AnalysisBundle where
  selection : SelectionResult
  allocations : List Allocation
  wholeShareAllocations : List WholeShareAllocation
  projections : FinancialProjections
deriving DecidableEq, Repr, Inhabited

/-- `run_complete_analysis` (lines 433-517): selector (with its default
`max_stocks=20, min_stocks=8, peg_threshold=1.0`), then optimization,
projections and whole-share reconciliation; any raised error aborts the
pipeline with no partial result. -/
def run_complete_analysis (univ : List Stock) (monthlyInvestment : ℚ)
    (horizonMonths : ℤ) (expectedCagr : ℚ) (solver : Option (List ℚ)) :
    Except String AnalysisBundle := do
  let sel ← advanced_stock_selector univ expectedCagr horizonMonths 20 8 1
  let allocs := optimize_portfolio (sel.selections.map (·.stock))
    monthlyInvestment solver
  let fin ← match calculate_financial_projections monthlyInvestment
      horizonMonths sel.achievedCagr with
    | none => Except.error "ZeroDivisionError"
    | some f => Except.ok f
  let whole := calculate_whole_share_allocation allocs
  return { selection := sel, allocations := allocs,
           wholeShareAllocations := whole, projections := fin }

/-! ### Demo data used by concrete witnesses and counterexamples -/

/-- A forecast row carrying only a 24-month value. -/
def demoForecast24 (v : ℚ) : StockForecast :=
  { forecast6m := none, forecast12m := none, forecast18m := none,
    forecast24m := some v, forecast36m := none, forecast48m := none,
    forecast60m := none }

/-- A fully-populated demo stock with a 24-month forecast of 50%. -/
def mkDemoStock (t sec : String) (pe cagr price : ℚ) : Stock :=
  { ticker := t, sector := sec, currentPrice := price, peRatio := some pe,
    pbRatio := none, avgHistoricalCagr := some cagr, investmentStyle := none,
    riskLevel := none, overallRank := none,
    latestForecast := some (demoForecast24 50) }

/-- A usable price-to-earnings ratio: present and strictly positive. -/
def peOK (s : Stock) : Bool :=
  match s.peRatio with
  | some p => decide (0 < p)
  | none => false

/-- A usable average historical growth rate: present and positive. -/
def cagrOK (s : Stock) : Bool :=
  match s.avgHistoricalCagr with
  | some c => decide (0 < c)
  | none => false

/-- Universe with two sectors: "A" holds PEG 1/2, 3/5, 7/10 and "B" holds
PEG 1, so Round 1 already picks 2 stocks. -/
def univHeadBug : List Stock :=
  [mkDemoStock "A1" "A" 10 20 100, mkDemoStock "A2" "A" 12 20 100,
   mkDemoStock "A3" "A" 14 20 100, mkDemoStock "B1" "B" 10 10 100]

/-- A demo allocation for the C7 witness: price 100, monthly slice 50. -/
def demoAllocation : Allocation :=
  { stock := mkDemoStock "A1" "A" 10 20 100, ticker := "A1", sector := "A",
    currentPrice := 100, peRatio := some 10, pbRatio := none,
    expectedReturn := 20, weight := 1, monthlyAllocation := 50 }

/-- A stock with no PE ratio at all, used to witness the exclusion. -/
def badStock : Stock :=
  { ticker := "BAD", sector := "A", currentPrice := 100, peRatio := none,
    pbRatio := none, avgHistoricalCagr := some 20, investmentStyle := none,
    riskLevel := none, overallRank := none,
    latestForecast := some (demoForecast24 50) }

/-! ### Shared helper lemmas -/

theorem getLastD_map_range' (f : ℕ → α) (d : α) :
    ∀ (n s : ℕ), 1 ≤ n → ((List.range' s n).map f).getLastD d = f (s + n - 1) := by
  intro n
  induction n with
  | zero => intro s h; omega
  | succ k ih =>
    intro s _
    rw [List.range'_succ, List.map_cons]
    cases k with
    | zero => simp
    | succ m =>
      have h1 : ((List.range' (s+1) (m+1)).map f).getLastD (f s) = f (s + 1 + (m+1) - 1) :=
        ih (s+1) (by omega)
      calc (f s :: (List.range' (s+1) (m+1)).map f).getLastD d
          = ((List.range' (s+1) (m+1)).map f).getLastD (f s) := by
            have hne : (List.range' (s+1) (m+1)).map f ≠ [] := by
              simp [List.range'_succ]
            cases hx : (List.range' (s+1) (m+1)).map f with
            | nil => exact absurd hx hne
            | cons a l => simp [List.getLastD]
        _ = f (s + (m + 1 + 1) - 1) := by rw [h1]; exact congrArg f (by omega)

theorem list_sum_div (l : List ℚ) (c : ℚ) :
    (l.map (· / c)).sum = l.sum / c := by
  induction l with
  | nil => simp
  | cons a l ih => simp [ih, add_div]

/-! ### C5 — horizon resolution -/

theorem validate_horizon_mem (v : ℤ) :
    validate_horizon v ∈ ([12, 18, 24, 36, 48, 60] : List ℤ) := by
  simp only [validate_horizon]
  split_ifs <;> simp

theorem validate_horizon_min_tie (v x : ℤ)
    (hx : x ∈ ([12, 18, 24, 36, 48, 60] : List ℤ)) :
    (validate_horizon v - v).natAbs ≤ (x - v).natAbs ∧
      ((x - v).natAbs = (validate_horizon v - v).natAbs → validate_horizon v ≤ x) := by
  simp only [List.mem_cons, List.mem_singleton, List.not_mem_nil, or_false] at hx
  rcases hx with rfl | rfl | rfl | rfl | rfl | rfl <;>
    (simp only [validate_horizon]; split_ifs <;> omega)

theorem get_forecast_column_default (h : ℤ)
    (hh : h ∉ ([6, 12, 18, 24, 36, 48, 60] : List ℤ)) :
    get_forecast_column h = "forecast_24m" := by
  simp only [get_forecast_column]
  split_ifs <;> simp_all

/-- C5 counterexample: the claim says a requested horizon of 7 months
resolves to the 6-month bucket at minimum absolute distance; in the code,
`get_forecast_column(7)` falls back to `'forecast_24m'` and the request
validator `validate_horizon(7)` snaps to 12 (its supported list has no
6-month bucket), so neither path yields the 6-month bucket. -/
theorem c5_counterexample :
    get_forecast_column 7 = "forecast_24m" ∧ validate_horizon 7 = 12 ∧
      get_forecast_column 7 ≠ "forecast_6m" ∧ validate_horizon 7 ≠ 6 := by
  refine ⟨rfl, rfl, ?_, ?_⟩ <;> decide

/-- C5 amended: `get_forecast_column` maps the seven exact bucket values
to their own columns and every other horizon to `'forecast_24m'` (no
nearest-bucket search); separately, the request validator snaps the
horizon to the member of [12,18,24,36,48,60] at minimum absolute
distance, ties broken toward the lower bucket. -/
theorem c5_horizon_resolution :
    (∀ v : ℤ, validate_horizon v ∈ ([12, 18, 24, 36, 48, 60] : List ℤ) ∧
      ∀ x ∈ ([12, 18, 24, 36, 48, 60] : List ℤ),
        (validate_horizon v - v).natAbs ≤ (x - v).natAbs ∧
        ((x - v).natAbs = (validate_horizon v - v).natAbs → validate_horizon v ≤ x)) ∧
    (∀ h : ℤ, h ∉ ([6, 12, 18, 24, 36, 48, 60] : List ℤ) →
      get_forecast_column h = "forecast_24m") ∧
    get_forecast_column 6 = "forecast_6m" ∧
    get_forecast_column 12 = "forecast_12m" ∧
    get_forecast_column 18 = "forecast_18m" ∧
    get_forecast_column 24 = "forecast_24m" ∧
    get_forecast_column 36 = "forecast_36m" ∧
    get_forecast_column 48 = "forecast_48m" ∧
    get_forecast_column 60 = "forecast_60m" :=
  ⟨fun v => ⟨validate_horizon_mem v, fun x hx => validate_horizon_min_tie v x hx⟩,
   get_forecast_column_default, rfl, rfl, rfl, rfl, rfl, rfl, rfl⟩

/-- C5 witness: the amended theorem applied at horizon 30. -/
theorem c5_witness :
    validate_horizon 30 ∈ ([12, 18, 24, 36, 48, 60] : List ℤ) ∧
      get_forecast_column 30 = "forecast_24m" :=
  ⟨(c5_horizon_resolution.1 30).1, c5_horizon_resolution.2.1 30 (by decide)⟩

/-! ### C4 — Round-2 cap interaction with max_count -/

section ConcreteEvaluation

attribute [local semireducible] Rat.mul Rat.inv Rat.add Rat.sub Rat.ofScientific

/-- C4 failing input: with `max_stocks = 1` and two sectors, Round 1
alone selects 2 stocks, exceeding `max_stocks`.  `remaining_slots`
becomes `1 - 2 = -1` and `quality_stocks.head(-1)` (pandas negative-`n`
semantics: all rows but the last) still appends one Round-2 stock, so
the selector returns 3 stocks where the claim (and the code's own
comment, "Add qualifying stocks up to max_stocks limit") requires no
Round-2 additions. -/
theorem c4_head_negative :
    (round1Picks (qualityGateDf (buildStockData univHeadBug "forecast_24m"))).length = 2 ∧
    (round2Additions (qualityGateDf (buildStockData univHeadBug "forecast_24m"))
      (round1Picks (qualityGateDf (buildStockData univHeadBug "forecast_24m"))) 1 1).length = 1 ∧
    (selectedStocks (advanced_stock_selector univHeadBug (15/100) 24 1 8 1)).length = 3 := by
  refine ⟨?_, ?_, ?_⟩ <;> decide

end ConcreteEvaluation

/-! ### C10 — well-definedness of the projection summary divisions -/

/-- C10: for horizons ≥ 1 the projection summary is produced exactly when
the monthly amount is nonzero; `total_investment = monthly × horizon`, so
at a zero monthly amount the divisor of `money_multiplier` and
`total_return_percentage` is zero and the computation has no result
(a `ZeroDivisionError` at runtime, `none` here). -/
theorem c10_summary_divisions (monthlyInvestment rate : ℚ) (h : ℤ) (hh : 1 ≤ h) :
    ((calculate_financial_projections monthlyInvestment h rate).isSome ↔
      monthlyInvestment ≠ 0) ∧
    (∀ fp, calculate_financial_projections monthlyInvestment h rate = some fp →
      fp.totalInvestment = monthlyInvestment * h ∧
      fp.totalInvestment ≠ 0 ∧
      fp.moneyMultiplier = (fp.finalValue : ℚ) / fp.totalInvestment ∧
      fp.totalReturnPercentage =
        ((fp.finalValue : ℚ) - fp.totalInvestment) / fp.totalInvestment * 100) := by
  have hpos : 1 ≤ h.toNat := by omega
  have hne : List.range' 1 h.toNat ≠ [] := by
    intro hcon
    have := congrArg List.length hcon
    simp at this
    omega
  have hlast : (cumulativeInvestedList monthlyInvestment h).getLastD 0 =
      monthlyInvestment * (h.toNat : ℚ) := by
    unfold cumulativeInvestedList
    rw [getLastD_map_range' (fun m : ℕ => monthlyInvestment * (m : ℚ)) 0 h.toNat 1 hpos]
    norm_num
  have hcast : ((h.toNat : ℕ) : ℚ) = (h : ℚ) := by
    have : ((h.toNat : ℤ) : ℚ) = (h : ℚ) := by
      rw [Int.toNat_of_nonneg (by omega : (0:ℤ) ≤ h)]
    push_cast at this ⊢
    exact this
  have hq : ((h : ℚ)) ≠ 0 := by
    have : (1 : ℚ) ≤ (h : ℚ) := by exact_mod_cast hh
    linarith
  have hti : (cumulativeInvestedList monthlyInvestment h).getLastD 0 =
      monthlyInvestment * (h : ℚ) := by rw [hlast, hcast]
  constructor
  · by_cases hm : monthlyInvestment = 0
    · subst hm
      simp only [calculate_financial_projections, if_neg hne]
      rw [hti]
      simp
    · simp only [calculate_financial_projections, if_neg hne]
      rw [hti]
      have : monthlyInvestment * (h : ℚ) ≠ 0 := mul_ne_zero hm hq
      simp [this, hm]
  · intro fp hfp
    simp only [calculate_financial_projections, if_neg hne] at hfp
    rw [hti] at hfp
    by_cases hz : monthlyInvestment * (h : ℚ) = 0
    · simp [hz] at hfp
    · rw [if_neg hz] at hfp
      obtain rfl : _ = fp := Option.some.inj hfp
      refine ⟨rfl, hz, rfl, rfl⟩

/-- C10 witness: the theorem applied at a 12-month horizon; a monthly
amount of 50000 yields a result, a zero amount does not. -/
theorem c10_witness :
    ((calculate_financial_projections 50000 12 (15/100)).isSome ↔ (50000 : ℚ) ≠ 0) ∧
    (∀ fp, calculate_financial_projections 50000 12 (15/100) = some fp →
      fp.totalInvestment = 50000 * ((12 : ℤ) : ℚ) ∧
      fp.totalInvestment ≠ 0 ∧
      fp.moneyMultiplier = (fp.finalValue : ℚ) / fp.totalInvestment ∧
      fp.totalReturnPercentage =
        ((fp.finalValue : ℚ) - fp.totalInvestment) / fp.totalInvestment * 100) :=
  c10_summary_divisions 50000 (15/100) 12 (by decide)

/-! ### C2 — projection formulas -/

theorem cumulativeInvestedList_getD (mi : ℚ) (h : ℤ) (i : ℕ) (hi : i < h.toNat) :
    (cumulativeInvestedList mi h).getD i 0 = mi * ((i : ℚ) + 1) := by
  unfold cumulativeInvestedList
  rw [List.getD_eq_getElem _ _ (by simpa using hi), List.getElem_map,
    List.getElem_range']
  push_cast
  ring

theorem projectedValuesList_getD (mi : ℚ) (h : ℤ) (rate : ℚ) (i : ℕ)
    (hi : i < h.toNat) :
    (projectedValuesList mi h rate).getD i 0 =
      roundHalfEven (projectedValue mi rate (i + 1)) := by
  unfold projectedValuesList
  rw [List.getD_eq_getElem _ _ (by simpa using hi), List.getElem_map,
    List.getElem_range']
  exact congrArg roundHalfEven (congrArg (projectedValue mi rate) (by omega))

section

attribute [local semireducible] Rat.mul Rat.inv Rat.add Rat.sub Rat.ofScientific

/-- C2 counterexample: the claim asserts that whenever the monthly rate
`r/12` is nonzero the projected value equals the rounded closed form.  At
monthly amount 1000, horizon 2 and annual rate −0.12 the monthly rate is
−0.01 ≠ 0, yet the code takes the `monthly_cagr > 0` test's else-branch
and reports 2000 while the closed form rounds to 1990. -/
theorem c2_counterexample :
    (projectedValuesList 1000 2 (-12/100)).getD 1 0 = 2000 ∧
    roundHalfEven
      (1000 * (((1 + (-12/100 : ℚ) / 12) ^ 2 - 1) / ((-12/100 : ℚ) / 12))) = 1990 ∧
    ((-12/100 : ℚ) / 12 ≠ 0) ∧ (2000 : ℤ) ≠ 1990 := by
  refine ⟨?_, ?_, ?_, ?_⟩ <;> decide

end

/-- C2 amended: `cumulative_invested[m] = monthly_amount × m` for every
month `m = 1..h`; the code branches on `monthly_cagr > 0` (not `≠ 0`), so
`projected_value[m]` is the rounded closed form exactly when `r/12 > 0`,
and equals the rounded invested amount whenever `r/12 ≤ 0`, including
negative rates. -/
theorem c2_projection_formula (mi rate : ℚ) (h : ℤ) (i : ℕ) (hi : i < h.toNat) :
    (cumulativeInvestedList mi h).getD i 0 = mi * ((i : ℚ) + 1) ∧
    (0 < rate / 12 →
      (projectedValuesList mi h rate).getD i 0 =
        roundHalfEven (mi * (((1 + rate / 12) ^ (i + 1) - 1) / (rate / 12)))) ∧
    (rate / 12 ≤ 0 →
      (projectedValuesList mi h rate).getD i 0 =
        roundHalfEven (mi * ((i : ℚ) + 1))) := by
  refine ⟨cumulativeInvestedList_getD mi h i hi, ?_, ?_⟩
  · intro hpos
    rw [projectedValuesList_getD mi h rate i hi]
    unfold projectedValue
    rw [if_pos hpos]
  · intro hnonpos
    rw [projectedValuesList_getD mi h rate i hi]
    unfold projectedValue
    rw [if_neg (by linarith)]
    exact congrArg roundHalfEven (by push_cast; ring)

/-- C2 witness: the amended theorem applied at monthly amount 1000,
horizon 12, annual rate 0.12 and month 1. -/
theorem c2_witness :
    (cumulativeInvestedList 1000 12).getD 0 0 = 1000 * ((0 : ℚ) + 1) ∧
    (0 < (12/100 : ℚ) / 12 →
      (projectedValuesList 1000 12 (12/100)).getD 0 0 =
        roundHalfEven (1000 * (((1 + (12/100 : ℚ) / 12) ^ (0 + 1) - 1) / ((12/100 : ℚ) / 12)))) ∧
    ((12/100 : ℚ) / 12 ≤ 0 →
      (projectedValuesList 1000 12 (12/100)).getD 0 0 =
        roundHalfEven (1000 * ((0 : ℚ) + 1))) :=
  c2_projection_formula 1000 (12/100) 12 0 (by norm_num)

/-! ### C8 — projection monotonicity in the growth rate -/

theorem roundHalfEven_bounds (q : ℚ) :
    ⌊q⌋ ≤ roundHalfEven q ∧ roundHalfEven q ≤ ⌊q⌋ + 1 := by
  unfold roundHalfEven
  split_ifs <;> omega

theorem roundHalfEven_mono {a b : ℚ} (hab : a ≤ b) :
    roundHalfEven a ≤ roundHalfEven b := by
  have hf : ⌊a⌋ ≤ ⌊b⌋ := Int.floor_le_floor hab
  rcases lt_or_eq_of_le hf with hlt | heq
  · have h1 := (roundHalfEven_bounds a).2
    have h2 := (roundHalfEven_bounds b).1
    omega
  · unfold roundHalfEven
    rw [← heq]
    have hr : a - (⌊a⌋ : ℚ) ≤ b - (⌊a⌋ : ℚ) := by linarith
    split_ifs <;> first | omega | linarith

theorem geom_closed_form (x : ℚ) (hx : x ≠ 0) (m : ℕ) :
    ((1 + x) ^ m - 1) / x = ∑ k ∈ Finset.range m, (1 + x) ^ k := by
  rw [div_eq_iff hx, ← geom_sum_mul (1 + x) m]
  ring

theorem sum_geom_le (x y : ℚ) (hx : 0 ≤ x) (hxy : x ≤ y) (m : ℕ) :
    ∑ k ∈ Finset.range m, (1 + x) ^ k ≤ ∑ k ∈ Finset.range m, (1 + y) ^ k :=
  Finset.sum_le_sum fun k _ => pow_le_pow_left₀ (by linarith) (by linarith) k

theorem card_le_sum_geom (x : ℚ) (hx : 0 ≤ x) (m : ℕ) :
    (m : ℚ) ≤ ∑ k ∈ Finset.range m, (1 + x) ^ k := by
  have h1 : ∀ k ∈ Finset.range m, (1 : ℚ) ≤ (1 + x) ^ k := by
    intro k _
    have := pow_le_pow_left₀ (zero_le_one) (by linarith : (1 : ℚ) ≤ 1 + x) k
    simpa using this
  calc (m : ℚ) = ∑ _k ∈ Finset.range m, (1 : ℚ) := by simp
    _ ≤ ∑ k ∈ Finset.range m, (1 + x) ^ k := Finset.sum_le_sum h1

theorem projectedValue_mono (mi : ℚ) (hmi : 0 ≤ mi) {r1 r2 : ℚ}
    (hr : r1 ≤ r2) (m : ℕ) :
    projectedValue mi r1 m ≤ projectedValue mi r2 m := by
  unfold projectedValue
  have hdiv : r1 / 12 ≤ r2 / 12 := by linarith
  by_cases h1 : 0 < r1 / 12
  · have h2 : 0 < r2 / 12 := lt_of_lt_of_le h1 hdiv
    rw [if_pos h1, if_pos h2]
    apply mul_le_mul_of_nonneg_left _ hmi
    rw [geom_closed_form _ (ne_of_gt h1), geom_closed_form _ (ne_of_gt h2)]
    exact sum_geom_le _ _ (le_of_lt h1) hdiv m
  · rw [if_neg h1]
    by_cases h2 : 0 < r2 / 12
    · rw [if_pos h2]
      apply mul_le_mul_of_nonneg_left _ hmi
      rw [geom_closed_form _ (ne_of_gt h2)]
      exact card_le_sum_geom _ (le_of_lt h2) m
    · rw [if_neg h2]

section

attribute [local semireducible] Rat.mul Rat.inv Rat.add Rat.sub Rat.ofScientific

/-- C8 counterexample: the claim quantifies over every fixed monthly
amount and asserts an exact equality with the unrounded invested amount.
At monthly amount −12 the projected value strictly decreases when the
annual rate rises from 0 to 12 (months 2), and at monthly amount 1/2 and
rate 0 the projected value is the rounded 0 while the cumulative invested
amount is the unrounded 1/2. -/
theorem c8_counterexample :
    ((0 : ℚ) ≤ 12) ∧
    (projectedValuesList (-12) 2 12).getD 1 0 <
      (projectedValuesList (-12) 2 0).getD 1 0 ∧
    (projectedValuesList (1/2) 1 0).getD 0 0 = 0 ∧
    (cumulativeInvestedList (1/2) 1).getD 0 0 = 1/2 ∧
    ((0 : ℚ) ≠ 1/2) := by
  refine ⟨?_, ?_, ?_, ?_, ?_⟩ <;> decide

end

/-- C8 amended: for a nonnegative monthly amount the month-`m` projected
value is non-decreasing in the annual growth rate, and at rate 0 it
equals the cumulative invested amount rounded half-to-even to a whole
unit (exact equality whenever that amount is a whole number). -/
theorem c8_projection_monotone (mi r1 r2 : ℚ) (h : ℤ) (i : ℕ)
    (hmi : 0 ≤ mi) (hr : r1 ≤ r2) (hi : i < h.toNat) :
    (projectedValuesList mi h r1).getD i 0 ≤
      (projectedValuesList mi h r2).getD i 0 ∧
    (projectedValuesList mi h 0).getD i 0 =
      roundHalfEven ((cumulativeInvestedList mi h).getD i 0) := by
  constructor
  · rw [projectedValuesList_getD mi h r1 i hi, projectedValuesList_getD mi h r2 i hi]
    exact roundHalfEven_mono (projectedValue_mono mi hmi hr (i + 1))
  · rw [projectedValuesList_getD mi h 0 i hi, cumulativeInvestedList_getD mi h i hi]
    unfold projectedValue
    rw [if_neg (by norm_num)]
    exact congrArg roundHalfEven (by push_cast; ring)

/-- C8 witness: the amended theorem applied at monthly amount 1000,
horizon 12, rates 0 ≤ 0.12 and month 3. -/
theorem c8_witness :
    (projectedValuesList 1000 12 0).getD 2 0 ≤
      (projectedValuesList 1000 12 (12/100)).getD 2 0 ∧
    (projectedValuesList 1000 12 0).getD 2 0 =
      roundHalfEven ((cumulativeInvestedList 1000 12).getD 2 0) :=
  c8_projection_monotone 1000 0 (12/100) 12 2 (by norm_num) (by norm_num)
    (by norm_num)

/-! ### C7 — whole-share reconciliation -/

section

attribute [local semireducible] Rat.mul Rat.inv Rat.add Rat.sub Rat.ofScientific

/-- C7 counterexample: the claim quantifies over every list of
allocations with positive prices, but reconciling the empty list returns
the empty list, whose recomputed actual weights sum to 0, not to 1
within any tolerance. -/
theorem c7_counterexample :
    calculate_whole_share_allocation [] = [] ∧
    ¬(|((calculate_whole_share_allocation []).map (·.actualWeight)).sum - 1| ≤
      1/1000000) := by
  refine ⟨rfl, ?_⟩
  decide

end

/-- C7 amended: for every nonempty list of allocations with positive
current prices, reconciliation keeps one entry per allocation with
`target_shares = monthly_allocation / current_price`,
`whole_shares = max 1 (round target_shares) ≥ 1`,
`share_cost = whole_shares × current_price`, recomputed actual weights
summing to exactly 1, and the same
`total_monthly_investment = Σ share_cost` attached to every entry. -/
theorem c7_reconciliation (allocs : List Allocation) (hne : allocs ≠ [])
    (hpos : ∀ a ∈ allocs, 0 < a.currentPrice) :
    (calculate_whole_share_allocation allocs).length = allocs.length ∧
    (∀ w ∈ calculate_whole_share_allocation allocs, ∃ a ∈ allocs,
      w.ticker = a.ticker ∧ w.currentPrice = a.currentPrice ∧
      w.targetShares = a.monthlyAllocation / a.currentPrice ∧
      w.wholeShares = max 1 (roundHalfEven (a.monthlyAllocation / a.currentPrice)) ∧
      1 ≤ w.wholeShares ∧
      w.shareCost = (w.wholeShares : ℚ) * a.currentPrice ∧
      w.totalMonthlyInvestment =
        ((calculate_whole_share_allocation allocs).map (·.shareCost)).sum) ∧
    ((calculate_whole_share_allocation allocs).map (·.actualWeight)).sum = 1 := by
  have hcost : ∀ p ∈ allocs.map preShareAlloc, 0 < p.shareCost := by
    intro p hp
    obtain ⟨a, ha, rfl⟩ := List.mem_map.mp hp
    unfold preShareAlloc
    have h1 : (1 : ℤ) ≤ max 1 (roundHalfEven (a.monthlyAllocation / a.currentPrice)) :=
      le_max_left _ _
    have h1q : (1 : ℚ) ≤
        ((max 1 (roundHalfEven (a.monthlyAllocation / a.currentPrice)) : ℤ) : ℚ) := by
      exact_mod_cast h1
    exact mul_pos (lt_of_lt_of_le zero_lt_one h1q) (hpos a ha)
  have hT : 0 < ((allocs.map preShareAlloc).map (·.shareCost)).sum := by
    apply List.sum_pos
    · intro x hx
      obtain ⟨p, hp, rfl⟩ := List.mem_map.mp hx
      exact hcost p hp
    · simp [hne]
  have hcosts : (calculate_whole_share_allocation allocs).map (·.shareCost) =
      (allocs.map preShareAlloc).map (·.shareCost) := by
    unfold calculate_whole_share_allocation
    rw [List.map_map]
    rfl
  refine ⟨?_, ?_, ?_⟩
  · unfold calculate_whole_share_allocation
    simp
  · intro w hw
    unfold calculate_whole_share_allocation at hw
    obtain ⟨p, hp, rfl⟩ := List.mem_map.mp hw
    obtain ⟨a, ha, rfl⟩ := List.mem_map.mp hp
    refine ⟨a, ha, rfl, rfl, rfl, rfl, ?_, ?_, ?_⟩
    · exact le_max_left _ _
    · rfl
    · rw [hcosts]
  · have hw : (calculate_whole_share_allocation allocs).map (·.actualWeight) =
        ((allocs.map preShareAlloc).map (·.shareCost)).map
          (· / ((allocs.map preShareAlloc).map (·.shareCost)).sum) := by
      unfold calculate_whole_share_allocation
      simp [List.map_map, Function.comp_def]
    rw [hw, list_sum_div]
    exact div_self (ne_of_gt hT)

/-- C7 witness: the amended theorem applied to one allocation with a
positive price. -/
theorem c7_witness :
    (calculate_whole_share_allocation [demoAllocation]).length = [demoAllocation].length ∧
    (∀ w ∈ calculate_whole_share_allocation [demoAllocation], ∃ a ∈ [demoAllocation],
      w.ticker = a.ticker ∧ w.currentPrice = a.currentPrice ∧
      w.targetShares = a.monthlyAllocation / a.currentPrice ∧
      w.wholeShares = max 1 (roundHalfEven (a.monthlyAllocation / a.currentPrice)) ∧
      1 ≤ w.wholeShares ∧
      w.shareCost = (w.wholeShares : ℚ) * a.currentPrice ∧
      w.totalMonthlyInvestment =
        ((calculate_whole_share_allocation [demoAllocation]).map (·.shareCost)).sum) ∧
    ((calculate_whole_share_allocation [demoAllocation]).map (·.actualWeight)).sum = 1 :=
  c7_reconciliation [demoAllocation] (by simp)
    (by intro a ha; rw [List.mem_singleton] at ha; subst ha; norm_num [demoAllocation])

/-! ### C1 — optimizer output on the weight simplex -/

/-- C1: for n ≥ 1 selected stocks, `optimize_portfolio` returns one
allocation per stock; assuming only the SLSQP contract for a converged
solve (a weight vector of the right length, within the `(0,1)` bounds,
satisfying the sum constraint within 1e-6), the output weights are
nonnegative and sum to 1 within 1e-6 on both the solver path and the
fallback path, the fallback weights all equal exactly `1/n`, and every
`monthly_allocation` equals `weight × monthly_investment`. -/
theorem c1_optimize_portfolio_simplex (stocks : List Stock) (mi : ℚ)
    (solver : Option (List ℚ)) (hne : stocks ≠ [])
    (hsolver : ∀ w, solver = some w → w.length = stocks.length ∧
      (∀ x ∈ w, 0 ≤ x) ∧ |w.sum - 1| ≤ 1/1000000) :
    (optimize_portfolio stocks mi solver).length = stocks.length ∧
    (∀ a ∈ optimize_portfolio stocks mi solver, 0 ≤ a.weight) ∧
    |((optimize_portfolio stocks mi solver).map (·.weight)).sum - 1| ≤ 1/1000000 ∧
    (solver = none → ∀ a ∈ optimize_portfolio stocks mi solver,
      a.weight = 1 / (stocks.length : ℚ)) ∧
    (∀ a ∈ optimize_portfolio stocks mi solver,
      a.monthlyAllocation = a.weight * mi) := by
  have hnlen : 0 < stocks.length := List.length_pos.mpr hne
  have hn0 : ((stocks.length : ℕ) : ℚ) ≠ 0 := Nat.cast_ne_zero.mpr (by omega)
  rcases solver with _ | w
  · have hwlen : (List.replicate stocks.length (1 / (stocks.length : ℚ))).length =
        stocks.length := List.length_replicate _ _
    have hmap : (optimize_portfolio stocks mi none).map (·.weight) =
        List.replicate stocks.length (1 / (stocks.length : ℚ)) := by
      unfold optimize_portfolio
      rw [List.map_map]
      have : ((fun a => a.weight) ∘ fun p =>
          ({ stock := p.1, ticker := p.1.ticker, sector := p.1.sector,
             currentPrice := p.1.currentPrice, peRatio := p.1.peRatio,
             pbRatio := p.1.pbRatio, expectedReturn := returnOf p.1,
             weight := p.2, monthlyAllocation := p.2 * mi } : Allocation)) =
          Prod.snd := rfl
      rw [this]
      exact List.map_snd_zip _ _ (le_of_eq hwlen)
    refine ⟨?_, ?_, ?_, ?_, ?_⟩
    · unfold optimize_portfolio
      simp
    · intro a ha
      unfold optimize_portfolio at ha
      obtain ⟨p, hp, rfl⟩ := List.mem_map.mp ha
      have := (List.of_mem_zip hp).2
      rw [List.mem_replicate] at this
      rw [this.2]
      positivity
    · rw [hmap, List.sum_replicate, nsmul_eq_mul, mul_one_div,
        div_self hn0]
      norm_num
    · intro _ a ha
      unfold optimize_portfolio at ha
      obtain ⟨p, hp, rfl⟩ := List.mem_map.mp ha
      have := (List.of_mem_zip hp).2
      rw [List.mem_replicate] at this
      exact this.2
    · intro a ha
      unfold optimize_portfolio at ha
      obtain ⟨p, hp, rfl⟩ := List.mem_map.mp ha
      rfl
  · obtain ⟨hwlen, hwnn, hwsum⟩ := hsolver w rfl
    have hmap : (optimize_portfolio stocks mi (some w)).map (·.weight) = w := by
      unfold optimize_portfolio
      rw [List.map_map]
      have : ((fun a => a.weight) ∘ fun p =>
          ({ stock := p.1, ticker := p.1.ticker, sector := p.1.sector,
             currentPrice := p.1.currentPrice, peRatio := p.1.peRatio,
             pbRatio := p.1.pbRatio, expectedReturn := returnOf p.1,
             weight := p.2, monthlyAllocation := p.2 * mi } : Allocation)) =
          Prod.snd := rfl
      rw [this]
      exact List.map_snd_zip _ _ (le_of_eq hwlen)
    refine ⟨?_, ?_, ?_, ?_, ?_⟩
    · unfold optimize_portfolio
      simp [hwlen]
    · intro a ha
      unfold optimize_portfolio at ha
      obtain ⟨p, hp, rfl⟩ := List.mem_map.mp ha
      exact hwnn _ (List.of_mem_zip hp).2
    · rw [hmap]
      exact hwsum
    · intro hcon
      exact absurd hcon (by simp)
    · intro a ha
      unfold optimize_portfolio at ha
      obtain ⟨p, hp, rfl⟩ := List.mem_map.mp ha
      rfl

/-- C1 witness: one stock, failed solve — the fallback weight is exactly
1/1 and the allocation is `weight × 100`. -/
theorem c1_witness :
    (optimize_portfolio [mkDemoStock "A1" "A" 10 20 100] 100 none).length =
      [mkDemoStock "A1" "A" 10 20 100].length ∧
    (∀ a ∈ optimize_portfolio [mkDemoStock "A1" "A" 10 20 100] 100 none,
      0 ≤ a.weight) ∧
    |((optimize_portfolio [mkDemoStock "A1" "A" 10 20 100] 100 none).map
      (·.weight)).sum - 1| ≤ 1/1000000 ∧
    ((none : Option (List ℚ)) = none →
      ∀ a ∈ optimize_portfolio [mkDemoStock "A1" "A" 10 20 100] 100 none,
        a.weight = 1 / (([mkDemoStock "A1" "A" 10 20 100].length : ℕ) : ℚ)) ∧
    (∀ a ∈ optimize_portfolio [mkDemoStock "A1" "A" 10 20 100] 100 none,
      a.monthlyAllocation = a.weight * 100) :=
  c1_optimize_portfolio_simplex [mkDemoStock "A1" "A" 10 20 100] 100 none
    (by simp) (fun w h => nomatch h)

/-! ### C6 — the optimizer objective at zero volatility -/

theorem riskOf_ne_zero (s : Stock) : riskOf s ≠ 0 := by
  unfold riskOf
  rcases s.peRatio with _ | p
  · dsimp only
    norm_num
  · dsimp only
    by_cases hp : p ≠ 0
    · rw [if_pos hp]
      exact div_ne_zero hp (by norm_num)
    · rw [if_neg hp]
      norm_num

section

attribute [local semireducible] Rat.mul Rat.inv Rat.add Rat.sub Rat.ofScientific

/-- C6 counterexample: the claim says a candidate weight vector with zero
volatility denominator makes the objective fall back to `-(wᵀr)`;  in the
code the division is unconditional, so at the single-stock weight vector
`[0]` the radicand `wᵀΣw` is 0 and the objective has no finite value
(NaN at runtime, `none` here) instead of the claimed `-(wᵀr) = 0`. -/
theorem c6_counterexample :
    portVolSq ([mkDemoStock "A1" "A" 25 20 100].map riskOf) [0] = 0 ∧
    objective ([mkDemoStock "A1" "A" 25 20 100].map returnOf)
      ([mkDemoStock "A1" "A" 25 20 100].map riskOf) [0] = none ∧
    -(dotQ [0] ([mkDemoStock "A1" "A" 25 20 100].map returnOf)) = 0 := by
  refine ⟨?_, ?_, ?_⟩ <;> decide

end

/-- C6 amended: the objective divides by the volatility unconditionally,
so it is undefined exactly when `wᵀΣw = 0`; because every diagonal risk
entry the code builds (`pe/100` for truthy PE, else `0.25`) is nonzero,
this happens only when every weight is zero.  For every weight vector
with at least one nonzero coordinate — in particular every vector on the
constraint simplex — the radicand is strictly positive and the objective
is a well-defined finite value. -/
theorem c6_objective_total_on_nonzero (stocks : List Stock) (w : List ℚ)
    (hlen : w.length = stocks.length) (hx : ∃ x ∈ w, x ≠ 0) :
    0 < portVolSq (stocks.map riskOf) w ∧
    objective (stocks.map returnOf) (stocks.map riskOf) w =
      some (-(dotQ w (stocks.map returnOf)), portVolSq (stocks.map riskOf) w) := by
  obtain ⟨x, hxw, hx0⟩ := hx
  obtain ⟨i, hi, rfl⟩ := List.mem_iff_getElem.mp hxw
  have hrlen : (stocks.map riskOf).length = stocks.length := List.length_map _ _
  have hzi : i < ((stocks.map riskOf).zip w).length := by
    rw [List.length_zip]
    omega
  have hirisk : i < (stocks.map riskOf).length := by omega
  have histock : i < stocks.length := by omega
  have hterm : ((stocks.map riskOf).zip w)[i] =
      ((stocks.map riskOf)[i], w[i]) := List.getElem_zip
  have hriskne : (stocks.map riskOf)[i] ≠ 0 := by
    rw [List.getElem_map]
    exact riskOf_ne_zero _
  have htermmem : (stocks.map riskOf)[i] ^ 2 * w[i] ^ 2 ∈
      (((stocks.map riskOf).zip w).map (fun p => p.1 ^ 2 * p.2 ^ 2)) := by
    refine List.mem_map.mpr ⟨((stocks.map riskOf)[i], w[i]), ?_, rfl⟩
    rw [← hterm]
    exact List.getElem_mem hzi
  have hpos : 0 < portVolSq (stocks.map riskOf) w := by
    unfold portVolSq
    refine lt_of_lt_of_le ?_ (List.single_le_sum ?_ _ htermmem)
    · exact mul_pos (pow_two_pos_of_ne_zero hriskne) (pow_two_pos_of_ne_zero hx0)
    · intro y hy
      obtain ⟨p, _, rfl⟩ := List.mem_map.mp hy
      positivity
  refine ⟨hpos, ?_⟩
  unfold objective
  rw [if_neg (ne_of_gt hpos)]

/-- C6 witness: the amended theorem applied to one stock and the uniform
weight vector `[1]`. -/
theorem c6_witness :
    0 < portVolSq ([mkDemoStock "A1" "A" 25 20 100].map riskOf) [1] ∧
    objective ([mkDemoStock "A1" "A" 25 20 100].map returnOf)
      ([mkDemoStock "A1" "A" 25 20 100].map riskOf) [1] =
      some (-(dotQ [1] ([mkDemoStock "A1" "A" 25 20 100].map returnOf)),
        portVolSq ([mkDemoStock "A1" "A" 25 20 100].map riskOf) [1]) :=
  c6_objective_total_on_nonzero [mkDemoStock "A1" "A" 25 20 100] [1]
    (by simp) ⟨1, by simp, by norm_num⟩

/-! ### C3 — the quality gate permanently excludes unusable instruments -/

theorem mem_insertSorted (le : α → α → Bool) (a x : α) (l : List α) :
    x ∈ insertSorted le a l ↔ x = a ∨ x ∈ l := by
  induction l with
  | nil => simp [insertSorted]
  | cons y ys ih =>
    unfold insertSorted
    by_cases h : le a y
    · simp [h]
    · simp only [if_neg h, List.mem_cons, ih]
      tauto

theorem mem_insertionSort (le : α → α → Bool) (x : α) (l : List α) :
    x ∈ insertionSort le l ↔ x ∈ l := by
  induction l with
  | nil => simp [insertionSort]
  | cons y ys ih =>
    unfold insertionSort
    rw [mem_insertSorted, ih]
    simp

theorem mem_pandasHead (n : ℤ) (l : List α) (x : α) (h : x ∈ pandasHead n l) :
    x ∈ l := by
  unfold pandasHead at h
  split_ifs at h <;> exact List.take_subset _ _ h

theorem mem_round1Picks (df : List Row) (r : Row) (h : r ∈ round1Picks df) :
    r ∈ df := by
  unfold round1Picks at h
  obtain ⟨sec, _, hh⟩ := List.mem_filterMap.mp h
  have hmem : r ∈ insertionSort pegLe (df.filter (fun q => decide (q.sector = sec))) := by
    cases hx : insertionSort pegLe (df.filter (fun q => decide (q.sector = sec))) with
    | nil => rw [hx] at hh; simp at hh
    | cons a t =>
      rw [hx] at hh
      simp only [List.head?] at hh
      obtain rfl : a = r := Option.some.inj hh
      exact List.mem_cons_self _ _
  exact (List.mem_filter.mp ((mem_insertionSort _ _ _).mp hmem)).1

theorem mem_round2Additions (df round1 : List Row) (maxStocks : ℤ)
    (pegThreshold : ℚ) (r : Row)
    (h : r ∈ round2Additions df round1 maxStocks pegThreshold) : r ∈ df := by
  simp only [round2Additions] at h
  split_ifs at h with hq
  · simp at h
  · have h1 := mem_pandasHead _ _ _ h
    have h2 := (mem_insertionSort _ _ _).mp h1
    exact (List.mem_filter.mp (List.mem_filter.mp h2).1).1

theorem buildStockData_good (univ : List Stock) (col : String) (r : Row)
    (h : r ∈ buildStockData univ col) :
    peOK r.stock = true ∧ cagrOK r.stock = true := by
  unfold buildStockData at h
  obtain ⟨s, _, hmk⟩ := List.mem_filterMap.mp h
  unfold mkRow at hmk
  rcases hl : s.latestForecast with _ | fc <;> rw [hl] at hmk
  · simp at hmk
  rcases hp : s.peRatio with _ | pe <;> rw [hp] at hmk
  · simp at hmk
  rcases hc : s.avgHistoricalCagr with _ | cagr <;> rw [hc] at hmk
  · simp at hmk
  dsimp only at hmk
  split_ifs at hmk with h1
  rcases hg : getForecastVal fc col with _ | fv <;> rw [hg] at hmk
  · simp at hmk
  dsimp only at hmk
  split_ifs at hmk with h2
  obtain rfl : _ = r := Option.some.inj hmk
  constructor
  · show peOK s = true
    unfold peOK
    rw [hp]
    simpa using h2.2.1
  · show cagrOK s = true
    unfold cagrOK
    rw [hc]
    simpa using h2.2.2

/-- C3: an instrument whose PE ratio is absent or non-positive, or whose
average historical growth rate is absent or non-positive, never appears
among the stocks of any selector outcome, for any parameters. -/
theorem c3_quality_gate_exclusion (univ : List Stock) (expectedCagr : ℚ)
    (horizonMonths maxStocks minStocks : ℤ) (pegThreshold : ℚ) (s : Stock)
    (hbad : peOK s = false ∨ cagrOK s = false) :
    s ∉ selectedStocks (advanced_stock_selector univ expectedCagr horizonMonths
      maxStocks minStocks pegThreshold) := by
  intro hmem
  cases hsel : advanced_stock_selector univ expectedCagr horizonMonths maxStocks
      minStocks pegThreshold with
  | error e =>
    rw [hsel] at hmem
    simp [selectedStocks] at hmem
  | ok res =>
    rw [hsel] at hmem
    simp only [selectedStocks] at hmem
    have hres : res.selections = selectionsOf
        (qualityGateDf (buildStockData univ (get_forecast_column horizonMonths)))
        maxStocks pegThreshold := by
      unfold advanced_stock_selector at hsel
      by_cases h1 : univ = []
      · rw [if_pos h1] at hsel
        simp at hsel
      · rw [if_neg h1] at hsel
        by_cases h2 : buildStockData univ (get_forecast_column horizonMonths) = []
        · rw [if_pos h2] at hsel
          simp at hsel
        · rw [if_neg h2] at hsel
          injection hsel with h
          rw [← h]
    obtain ⟨r, hr, hrs⟩ := List.mem_map.mp hmem
    rw [hres] at hr
    have hdf : r ∈ qualityGateDf (buildStockData univ (get_forecast_column horizonMonths)) := by
      unfold selectionsOf at hr
      rcases List.mem_append.mp hr with h | h
      · exact mem_round1Picks _ _ h
      · exact mem_round2Additions _ _ _ _ _ h
    have hbuild : r ∈ buildStockData univ (get_forecast_column horizonMonths) :=
      (List.mem_filter.mp hdf).1
    have hgood := buildStockData_good _ _ _ hbuild
    rw [hrs] at hgood
    rcases hbad with hb | hb <;> rw [hb] at hgood
    · exact Bool.false_ne_true hgood.1
    · exact Bool.false_ne_true hgood.2

/-- C3 witness: the PE-less stock is excluded from a concrete selection
over a two-stock universe. -/
theorem c3_witness :
    badStock ∉ selectedStocks (advanced_stock_selector
      [mkDemoStock "A1" "A" 10 20 100, badStock] (15/100) 24 20 8 1) :=
  c3_quality_gate_exclusion [mkDemoStock "A1" "A" 10 20 100, badStock]
    (15/100) 24 20 8 1 badStock (Or.inl rfl)

/-! ### C9 — data insufficiency is fatal to the whole request -/

/-- C9: if the universe is empty, or no instrument yields a valid data
row (latest forecast, truthy and positive PE and historical growth), the
selector raises a `ValueError` and the full pipeline
`run_complete_analysis` stops with an error — no selection, allocation
or projection bundle is produced. -/
theorem c9_data_insufficiency (univ : List Stock) (mi expectedCagr : ℚ)
    (horizonMonths : ℤ) (solver : Option (List ℚ))
    (hins : univ = [] ∨
      buildStockData univ (get_forecast_column horizonMonths) = []) :
    (∃ msg, advanced_stock_selector univ expectedCagr horizonMonths 20 8 1 =
      .error msg) ∧
    (∃ msg, run_complete_analysis univ mi horizonMonths expectedCagr solver =
      .error msg) := by
  have hsel : ∃ msg, advanced_stock_selector univ expectedCagr horizonMonths 20 8 1 =
      .error msg := by
    unfold advanced_stock_selector
    by_cases h1 : univ = []
    · rw [if_pos h1]
      exact ⟨_, rfl⟩
    · rw [if_neg h1]
      rcases hins with h | h2
    -- the empty-universe case is impossible here
      · exact absurd h h1
      · rw [if_pos h2]
        exact ⟨_, rfl⟩
  obtain ⟨msg, hmsg⟩ := hsel
  refine ⟨⟨msg, hmsg⟩, ⟨msg, ?_⟩⟩
  unfold run_complete_analysis
  rw [hmsg]
  rfl

/-- C9 witness: the empty universe makes both the selector and the full
pipeline fail. -/
theorem c9_witness :
    (∃ msg, advanced_stock_selector [] (15/100) 24 20 8 1 = .error msg) ∧
    (∃ msg, run_complete_analysis [] 50000 24 (15/100) none = .error msg) :=
  c9_data_insufficiency [] 50000 (15/100) 24 none (Or.inl rfl)

end Vriddhi
